import Mathlib

/-!
Verification development for the agola run-scheduling core.

This file gives a shallow embedding of the parts of the repository that the
verified properties talk about:

* the run DAG engine (`advanceRunTasks`, `getTasksToRun`) — only the tests
  `TestAdvanceRunTasks` / `TestGetTasksToRun` are in the source tree, so the
  functions themselves are modelled from the specification (sections 4.3a/4.3b)
  and validated against those tests;
* secret/variable resolution (`FilterOverridenVariables`,
  `GetVarValueMatchingSecret`) — likewise only the tests are present, the
  functions are modelled from specification section 4.4;
* the configstore action layer (`CreateSecret`, `CreateVariable`) from
  `internal/services/configstore/action/secret.go` and its variable
  counterpart, over a datamanager model (`WriteWal`, change-group tokens)
  taken from specification section 4.1;
* the HTTP error mapping (`httpError`) of the configstore api and of the
  gateway api;
* the list-endpoint limit handling (`UsersHandler` and friends);
* the gitlab webhook parsing (`parsePushHook`, `parsePullRequestHook`) from
  `internal/common/common.go` (gitlab part).
-/

/-- Error kinds mirroring the wrappers `util.NewErrBadRequest` /
`util.NewErrNotFound` and the checks `util.IsErrBadRequest` /
`util.IsErrNotFound` used throughout the configstore and gateway, plus the
datamanager `Conflict` kind from specification section 7. -/
inductive ErrKind
  | badRequest | notFound | conflict | internal
  deriving DecidableEq

/-- An error value: a kind plus the message produced by `errors.Errorf`. -/
structure Err where
  kind : ErrKind
  msg : String
  deriving DecidableEq

/-! ## Run DAG engine data model (runservice types) -/

/-- `types.RunTaskStatus`: not_started, skipped, waiting_approval, running,
success, failed, stopped. -/
inductive RunTaskStatus
  | notStarted | skipped | waitingApproval | running | success | failed | stopped
  deriving DecidableEq

/-- Terminal statuses per the specification data model: success, failed,
skipped, stopped. -/
def RunTaskStatus.isFinished : RunTaskStatus → Bool
  | .skipped | .success | .failed | .stopped => true
  | _ => false

/-- `types.RunTask`: runtime state of one DAG node (fields the scheduler
reads: ID, Status, Approved). -/
structure RunTask where
  id : String
  status : RunTaskStatus
  approved : Bool
  deriving DecidableEq

/-- Dependency conditions, specification section 3: Conditions is a subset of
on_success, on_failure, on_skipped. -/
inductive DependCondition
  | onSuccess | onFailure | onSkipped
  deriving DecidableEq

/-- `types.RunConfigTaskDepend`: a dependency entry {TaskID, Conditions}. -/
structure RunConfigTaskDepend where
  taskID : String
  conditions : List DependCondition
  deriving DecidableEq

/-- `types.RunConfigTask`: the static plan of one task (fields the scheduler
reads: ID, Name, Depends, Skip, NeedsApproval). -/
structure RunConfigTask where
  id : String
  name : String
  depends : List RunConfigTaskDepend
  skip : Bool
  needsApproval : Bool
  deriving DecidableEq

/-- `Run.RunTasks`: mapping TaskID to RunTask. -/
abbrev RunMap : Type := String → Option RunTask

/-- `RunConfig.Tasks`: mapping TaskID to RunConfigTask. -/
abbrev RunConfigMap : Type := String → Option RunConfigTask

/-- Default conditions: `{on_success}` when unspecified (specification
section 4.3b, point 3). -/
def effectiveConditions (conds : List DependCondition) : List DependCondition :=
  match conds with
  | [] => [.onSuccess]
  | _ => conds

/-- Whether one declared condition matches a dependency's status. -/
def conditionMatches : DependCondition → RunTaskStatus → Bool
  | .onSuccess, .success => true
  | .onFailure, .failed => true
  | .onSkipped, .skipped => true
  | _, _ => false

/-- Whether a dependency's status matches its (effective) condition set. -/
def depStatusMatches (d : RunConfigTaskDepend) (st : RunTaskStatus) : Bool :=
  (effectiveConditions d.conditions).any (fun c => conditionMatches c st)

/-- One dependency is in a terminal status that fails its condition set. -/
def depFinishedAndUnmatched (r : RunMap) (d : RunConfigTaskDepend) : Bool :=
  match r d.taskID with
  | some dt => dt.status.isFinished && !(depStatusMatches d dt.status)
  | none => false

/-- Modelled from the spec: section 4.3a `advanceRunTasks` per-task step (the
scheduler implementation is absent from the source tree, only
`TestAdvanceRunTasks` is present).  A terminal task is left alone; a task all
of whose dependencies are terminal with statuses failing their condition sets
is marked skipped; otherwise the task is left unchanged.  A task with no
dependencies is left unchanged (the vacuous reading of the rule is ruled out
by the first case of `TestAdvanceRunTasks`). -/
def advanceTask (r : RunMap) (rct : RunConfigTask) (t : RunTask) : RunTask :=
  if t.status.isFinished then t
  else if !rct.depends.isEmpty && rct.depends.all (depFinishedAndUnmatched r) then
    { t with status := .skipped }
  else t

/-- Point update of a run map. -/
def updateRun (r : RunMap) (id : String) (t : RunTask) : RunMap :=
  fun x => if x = id then some t else r x

/-- One fold step of `advanceRunTasks`: process the task with the given id. -/
def advanceRunTasksStep (rc : RunConfigMap) (r : RunMap) (id : String) : RunMap :=
  match r id, rc id with
  | some t, some rct => updateRun r id (advanceTask r rct t)
  | _, _ => r

/-- Modelled from the spec: section 4.3a `advanceRunTasks` — propagate
terminal states over the tasks in (topological) `order`. -/
def advanceRunTasks (order : List String) (rc : RunConfigMap) (r : RunMap) : RunMap :=
  order.foldl (advanceRunTasksStep rc) r

/-- One dependency is terminal and its status matches its condition set. -/
def depSatisfied (r : RunMap) (d : RunConfigTaskDepend) : Bool :=
  match r d.taskID with
  | some dt => dt.status.isFinished && depStatusMatches d dt.status
  | none => false

/-- Eligibility of one task, specification section 4.3b points 1–3: status is
not_started, the runconfig task is not skipped, and every dependency is
terminal with a status in its (effective) condition set. -/
def taskEligible (r : RunMap) (rct : RunConfigTask) (t : RunTask) : Bool :=
  (t.status == RunTaskStatus.notStarted) && !rct.skip
    && rct.depends.all (depSatisfied r)

/-- One entry of `getTasksToRun`: the task is returned when eligible and, if
it needs approval, approved (section 4.3b point 4: an unapproved task is moved
to waiting_approval instead of being returned). -/
def getTasksToRunEntry (rc : RunConfigMap) (r : RunMap) (id : String) : Option RunTask :=
  match r id, rc id with
  | some t, some rct =>
    if taskEligible r rct t then
      if rct.needsApproval && !t.approved then none
      else some t
    else none
  | _, _ => none

/-- Modelled from the spec: section 4.3b `getTasksToRun` (the scheduler
implementation is absent from the source tree, only `TestGetTasksToRun` is
present). -/
def getTasksToRun (order : List String) (rc : RunConfigMap) (r : RunMap) : List RunTask :=
  order.filterMap (getTasksToRunEntry rc r)

/-! ### Test fixtures from `TestAdvanceRunTasks` / `TestGetTasksToRun` -/

/-- A runconfig task as built in the tests: named deps, no conditions, not
skipped, no approval needed. -/
def mkRCTask (id : String) (deps : List String) : RunConfigTask :=
  { id := id, name := id
    depends := deps.map (fun d => { taskID := d, conditions := [] })
    skip := false, needsApproval := false }

/-- A run task with a given status and approval flag. -/
def mkRunTask (id : String) (st : RunTaskStatus) (approved : Bool) : RunTask :=
  { id := id, status := st, approved := approved }

/-- The task ids of the shared test runconfig, in topological order. -/
def testOrder : List String := ["task01", "task02", "task03", "task04", "task05"]

/-- The shared test runconfig: task02 depends on task01; task05 depends on
task03 and task04. -/
def testRC : RunConfigMap := fun id =>
  if id = "task01" then some (mkRCTask "task01" [])
  else if id = "task02" then some (mkRCTask "task02" ["task01"])
  else if id = "task03" then some (mkRCTask "task03" [])
  else if id = "task04" then some (mkRCTask "task04" [])
  else if id = "task05" then some (mkRCTask "task05" ["task03", "task04"])
  else none

/-- The shared initial run: every task not started and unapproved. -/
def testRun : RunMap := fun id =>
  if id = "task01" then some (mkRunTask "task01" .notStarted false)
  else if id = "task02" then some (mkRunTask "task02" .notStarted false)
  else if id = "task03" then some (mkRunTask "task03" .notStarted false)
  else if id = "task04" then some (mkRunTask "task04" .notStarted false)
  else if id = "task05" then some (mkRunTask "task05" .notStarted false)
  else none

/-- Set the Skip flag of one runconfig task. -/
def setRCSkip (rc : RunConfigMap) (id : String) : RunConfigMap :=
  fun x => if x = id then (rc x).map (fun t => { t with skip := true }) else rc x

/-- Set the NeedsApproval flag of one runconfig task. -/
def setRCNeedsApproval (rc : RunConfigMap) (id : String) : RunConfigMap :=
  fun x => if x = id then (rc x).map (fun t => { t with needsApproval := true }) else rc x

/-- Set the status of one run task. -/
def setRunStatus (r : RunMap) (id : String) (st : RunTaskStatus) : RunMap :=
  fun x => if x = id then (r x).map (fun t => { t with status := st }) else r x

/-- Set the Approved flag of one run task. -/
def setRunApproved (r : RunMap) (id : String) : RunMap :=
  fun x => if x = id then (r x).map (fun t => { t with approved := true }) else r x

/-! ## Secrets, variables and hierarchical scopes -/

/-- `types.Parent`: {Type, ID, Path}.  The parent path is represented by its
slash-separated components, since the specification (section 4.4) defines path
comparison component-wise. -/
structure Parent where
  ptype : String
  id : String
  path : List String
  deriving DecidableEq

/-- `types.Secret`: ID, Name, Type, Data, Parent. -/
structure Secret where
  id : String
  name : String
  stype : String
  data : List (String × String)
  parent : Parent
  deriving DecidableEq

/-- `types.VariableValue`: {SecretName, SecretVar} (the When predicate is not
read by any modelled operation and is omitted). -/
structure VariableValue where
  secretName : String
  secretVar : String
  deriving DecidableEq

/-- `types.Variable`: ID, Name, Values, Parent. -/
structure Variable where
  id : String
  name : String
  values : List VariableValue
  parent : Parent
  deriving DecidableEq

/-- Component-wise ancestor-or-equal test: `isAncestorPath p q` holds when
path `p` is an ancestor of, or equal to, path `q` (specification section 4.4:
P is an ancestor of Q iff Q = P or Q begins with P followed by a slash). -/
def isAncestorPath : List String → List String → Bool
  | [], _ => true
  | _ :: _, [] => false
  | a :: as, b :: bs => a == b && isAncestorPath as bs

/-- Modelled from the spec: section 4.4 `GetVarValueMatchingSecret` (the
implementation is absent from the source tree, only
`TestGetVarValueMatchingSecret` is present).  The secrets are sorted
deepest-parent-first, as the test data states, so the first secret with the
referenced name whose parent path is an ancestor-or-equal of the variable's
parent path is the nearest eligible ancestor. -/
def GetVarValueMatchingSecret (varValue : VariableValue) (varParentPath : List String)
    (secrets : List Secret) : Option Secret :=
  secrets.find? fun s =>
    s.name == varValue.secretName && isAncestorPath s.parent.path varParentPath

/-- Accumulator pass of `FilterOverridenVariables`: keep a variable when its
name has not been seen yet (mirrors the map-based first-occurrence loop). -/
def filterOverridenAux (seen : List String) : List Variable → List Variable
  | [] => []
  | v :: vs =>
    if v.name ∈ seen then filterOverridenAux seen vs
    else v :: filterOverridenAux (v.name :: seen) vs

/-- Modelled from the spec: section 4.4 `FilterOverridenVariables` (the
implementation is absent from the source tree, only
`TestFilterOverridenVariables` is present).  Input is sorted
deepest-parent-first; only the first occurrence of each variable name is
kept. -/
def FilterOverridenVariables (vars : List Variable) : List Variable :=
  filterOverridenAux [] vars

/-! ## Configstore action layer: CreateSecret / CreateVariable

From `internal/services/configstore/action/secret.go` and the variable
counterpart, over a datamanager model taken from specification section 4.1
(the datamanager implementation is absent from the source tree). -/

/-- `types.ConfigTypeProject` as a string, as compared in the parent-type
validations. -/
def ConfigTypeProject : String := "project"

/-- `types.ConfigTypeProjectGroup` as a string. -/
def ConfigTypeProjectGroup : String := "projectgroup"

/-- `types.SecretTypeInternal` as a string. -/
def SecretTypeInternal : String := "internal"

/-- `datamanager.ChangeGroupsUpdateToken`: one revision token per named
change group, captured inside a read transaction. -/
structure ChangeGroupsUpdateToken where
  tokens : List (String × Nat)
  deriving DecidableEq

/-- Payload of a datamanager action (`json.Marshal` is modelled as the
identity injection of the entity). -/
inductive DMData
  | secretData (s : Secret)
  | variableData (v : Variable)
  deriving DecidableEq

/-- `datamanager.Action`: {ActionType, DataType, ID, Data}. -/
structure DMAction where
  actionType : String
  dataType : String
  id : String
  data : DMData
  deriving DecidableEq

/-- Modelled from the spec: section 4.1 datamanager state — the current
revision of every change group plus the write-ahead log of committed action
batches. -/
structure DataManager where
  revisions : String → Nat
  wal : List (List DMAction)

/-- The readDB interface used by the create actions: `ResolveConfigID`,
`GetSecretByName`, `GetVariableByName` (their implementations are treated as
an abstract read snapshot). -/
structure ReadDB where
  resolveConfigID : String → String → Except Err String
  getSecretByName : String → String → Option Secret
  getVariableByName : String → String → Option Variable

/-- Modelled from the spec: section 4.1 `GetChangeGroupsUpdateTokens` —
within a read transaction, return the current revision of each named group. -/
def GetChangeGroupsUpdateTokens (dm : DataManager) (names : List String) :
    ChangeGroupsUpdateToken :=
  ⟨names.map fun n => (n, dm.revisions n)⟩

/-- Modelled from the spec: section 4.1 `WriteWal` — fails with `Conflict`
when any cited change-group token was invalidated since capture; on success
appends the action batch to the log and bumps the revisions of the change
groups named by the entry. -/
def WriteWal (dm : DataManager) (actions : List DMAction)
    (cgt : ChangeGroupsUpdateToken) : Except Err Nat × DataManager :=
  if cgt.tokens.all (fun p => dm.revisions p.1 == p.2) then
    (Except.ok dm.wal.length,
     { revisions := fun n =>
         if n ∈ cgt.tokens.map Prod.fst then dm.revisions n + 1 else dm.revisions n
       wal := dm.wal ++ [actions] })
  else
    (Except.error ⟨ErrKind.conflict, "concurrent update"⟩, dm)

/-- The single read transaction of `CreateSecret` in `secret.go`: capture the
change-group token named `sha256("secretname-" + name)`, resolve the parent
id and check for a duplicate name; on success produce the stored secret (with
resolved parent and fresh id), the wal actions and the captured token.
`sha256hex` stands for `util.EncodeSha256Hex`, whose body is not in the
source tree. -/
def createSecretTx (sha256hex : String → String) (db : ReadDB) (dm : DataManager)
    (newID : String) (secret : Secret) :
    Except Err (Secret × List DMAction × ChangeGroupsUpdateToken) :=
  match db.resolveConfigID secret.parent.ptype secret.parent.id with
  | Except.error e => Except.error e
  | Except.ok parentID =>
    match db.getSecretByName parentID secret.name with
    | some _ => Except.error ⟨ErrKind.badRequest, "secret already exists"⟩
    | none =>
      Except.ok
        ({ secret with id := newID, parent := { secret.parent with id := parentID } },
         [⟨"put", "secret", newID,
           DMData.secretData
             { secret with id := newID, parent := { secret.parent with id := parentID } }⟩],
         GetChangeGroupsUpdateTokens dm [sha256hex ("secretname-" ++ secret.name)])

/-- The read phase of `CreateSecret`: the input validations of `secret.go`
followed by the read transaction.  `validName` stands for
`util.ValidateName`, whose body is not in the source tree. -/
def createSecretRead (validName : String → Bool) (sha256hex : String → String)
    (db : ReadDB) (dm : DataManager) (newID : String) (secret : Secret) :
    Except Err (Secret × List DMAction × ChangeGroupsUpdateToken) :=
  if secret.name = "" then
    Except.error ⟨ErrKind.badRequest, "secret name required"⟩
  else if !(validName secret.name) then
    Except.error ⟨ErrKind.badRequest, "invalid secret name"⟩
  else if secret.stype ≠ SecretTypeInternal then
    Except.error ⟨ErrKind.badRequest, "invalid secret type"⟩
  else if secret.data = [] then
    Except.error ⟨ErrKind.badRequest, "empty secret data"⟩
  else if secret.parent.ptype = "" then
    Except.error ⟨ErrKind.badRequest, "secret parent type required"⟩
  else if secret.parent.id = "" then
    Except.error ⟨ErrKind.badRequest, "secret parentid required"⟩
  else if secret.parent.ptype ≠ ConfigTypeProject ∧ secret.parent.ptype ≠ ConfigTypeProjectGroup then
    Except.error ⟨ErrKind.badRequest, "invalid secret parent type"⟩
  else
    createSecretTx sha256hex db dm newID secret

/-- The write phase of `CreateSecret`: the `WriteWal` call with the actions
and token produced by the read phase. -/
def createSecretWrite (dm : DataManager)
    (p : Secret × List DMAction × ChangeGroupsUpdateToken) :
    Except Err Secret × DataManager :=
  match WriteWal dm p.2.1 p.2.2 with
  | (Except.ok _, dm2) => (Except.ok p.1, dm2)
  | (Except.error e, dm2) => (Except.error e, dm2)

/-- `ActionHandler.CreateSecret` from
`internal/services/configstore/action/secret.go`: read phase then write
phase; any error leaves the datamanager untouched. -/
def CreateSecret (validName : String → Bool) (sha256hex : String → String)
    (db : ReadDB) (dm : DataManager) (newID : String) (secret : Secret) :
    Except Err Secret × DataManager :=
  match createSecretRead validName sha256hex db dm newID secret with
  | Except.error e => (Except.error e, dm)
  | Except.ok p => createSecretWrite dm p

/-- The single read transaction of `CreateVariable`: capture the token named
`sha256("variablename-" + name)`, resolve the parent and check for a
duplicate name. -/
def createVariableTx (sha256hex : String → String) (db : ReadDB) (dm : DataManager)
    (newID : String) (v : Variable) :
    Except Err (Variable × List DMAction × ChangeGroupsUpdateToken) :=
  match db.resolveConfigID v.parent.ptype v.parent.id with
  | Except.error e => Except.error e
  | Except.ok parentID =>
    match db.getVariableByName parentID v.name with
    | some _ => Except.error ⟨ErrKind.badRequest, "variable already exists"⟩
    | none =>
      Except.ok
        ({ v with id := newID, parent := { v.parent with id := parentID } },
         [⟨"put", "variable", newID,
           DMData.variableData
             { v with id := newID, parent := { v.parent with id := parentID } }⟩],
         GetChangeGroupsUpdateTokens dm [sha256hex ("variablename-" ++ v.name)])

/-- The read phase of `CreateVariable`: the input validations of the variable
action file followed by the read transaction. -/
def createVariableRead (validName : String → Bool) (sha256hex : String → String)
    (db : ReadDB) (dm : DataManager) (newID : String) (v : Variable) :
    Except Err (Variable × List DMAction × ChangeGroupsUpdateToken) :=
  if v.name = "" then
    Except.error ⟨ErrKind.badRequest, "variable name required"⟩
  else if !(validName v.name) then
    Except.error ⟨ErrKind.badRequest, "invalid variable name"⟩
  else if v.values = [] then
    Except.error ⟨ErrKind.badRequest, "variable values required"⟩
  else if v.parent.ptype = "" then
    Except.error ⟨ErrKind.badRequest, "variable parent type required"⟩
  else if v.parent.id = "" then
    Except.error ⟨ErrKind.badRequest, "variable parent id required"⟩
  else if v.parent.ptype ≠ ConfigTypeProject ∧ v.parent.ptype ≠ ConfigTypeProjectGroup then
    Except.error ⟨ErrKind.badRequest, "invalid variable parent type"⟩
  else
    createVariableTx sha256hex db dm newID v

/-- The write phase of `CreateVariable`. -/
def createVariableWrite (dm : DataManager)
    (p : Variable × List DMAction × ChangeGroupsUpdateToken) :
    Except Err Variable × DataManager :=
  match WriteWal dm p.2.1 p.2.2 with
  | (Except.ok _, dm2) => (Except.ok p.1, dm2)
  | (Except.error e, dm2) => (Except.error e, dm2)

/-- `ActionHandler.CreateVariable` from the configstore action layer. -/
def CreateVariable (validName : String → Bool) (sha256hex : String → String)
    (db : ReadDB) (dm : DataManager) (newID : String) (v : Variable) :
    Except Err Variable × DataManager :=
  match createVariableRead validName sha256hex db dm newID v with
  | Except.error e => (Except.error e, dm)
  | Except.ok p => createVariableWrite dm p

/-! ## HTTP error mapping -/

/-- An HTTP response as far as the error helpers shape it: a status code and
the body written for it. -/
structure HTTPResponse where
  status : Nat
  body : String
  deriving DecidableEq

/-- `ErrorResponseFromError` of `internal/services/configstore/api/api.go`:
BadRequest and NotFound errors are surfaced verbatim, any other error is
replaced by a generic message so the real error does not leak. -/
def ErrorResponseFromError (e : Err) : String :=
  match e.kind with
  | ErrKind.badRequest => e.msg
  | ErrKind.notFound => e.msg
  | _ => "internal server error"

namespace configstoreapi

/-- `httpError` of `internal/services/configstore/api/api.go`: no response on
a nil error, 400 for BadRequest, 404 for NotFound, 500 otherwise; the body is
the marshalled `ErrorResponse` message (`json.Marshal` is modelled as
total). -/
def httpError (e : Option Err) : Option HTTPResponse :=
  match e with
  | none => none
  | some err =>
    match err.kind with
    | ErrKind.badRequest => some ⟨400, ErrorResponseFromError err⟩
    | ErrKind.notFound => some ⟨404, ErrorResponseFromError err⟩
    | _ => some ⟨500, ErrorResponseFromError err⟩

end configstoreapi

namespace gatewayapi

/-- `httpError` of the gateway api package: 400 with the error text for
BadRequest, and 500 with an empty body for every other error (`http.Error` is
modelled as returning its message argument as the body). -/
def httpError (e : Option Err) : Option HTTPResponse :=
  match e with
  | none => none
  | some err =>
    if err.kind = ErrKind.badRequest then some ⟨400, err.msg⟩
    else some ⟨500, ""⟩

end gatewayapi

/-! ## List endpoint limit handling -/

/-- The checks applied to the limit after parsing: negative values are a
BadRequest, values above the maximum are clamped. -/
def listLimitChecks (maxLimit limit : Int) : Except Err Int :=
  if limit < 0 then
    Except.error ⟨ErrKind.badRequest, "limit must be greater or equal than 0"⟩
  else if limit > maxLimit then Except.ok maxLimit
  else Except.ok limit

/-- The shared limit-handling prologue of the list handlers (`UsersHandler`,
`OrgsHandler`, `RemoteSourcesHandler`, ...): `none` means the limit query
parameter is absent (the default is used), `some none` a value that
`strconv.Atoi` rejects, `some (some n)` a value parsed to `n`. -/
def listLimit (dflt maxLimit : Int) (limitQuery : Option (Option Int)) : Except Err Int :=
  match limitQuery with
  | none => listLimitChecks maxLimit dflt
  | some none => Except.error ⟨ErrKind.badRequest, "cannot parse limit"⟩
  | some (some n) => listLimitChecks maxLimit n

/-- `DefaultUsersLimit` of the configstore users handler. -/
def DefaultUsersLimit : Int := 10

/-- `MaxUsersLimit` of the configstore users handler. -/
def MaxUsersLimit : Int := 20

/-- The limit computation of the configstore `UsersHandler`. -/
def usersListLimit (q : Option (Option Int)) : Except Err Int :=
  listLimit DefaultUsersLimit MaxUsersLimit q

/-! ## Gitlab webhook parsing (`internal/common/common.go`, gitlab part) -/

/-- One commit of a push hook payload (fields read: URL, Message). -/
structure PushHookCommit where
  url : String
  message : String
  deriving DecidableEq

/-- The project block of a hook payload (PathWithNamespace, WebURL). -/
structure HookProject where
  pathWithNamespace : String
  webURL : String
  deriving DecidableEq

/-- A decoded gitlab push (or tag push) hook payload. -/
structure PushHook where
  ref : String
  after : String
  commits : List PushHookCommit
  userName : String
  userUsername : String
  project : HookProject
  deriving DecidableEq

/-- `types.WebhookDataRepo`. -/
structure WebhookDataRepo where
  path : String
  webURL : String
  deriving DecidableEq

/-- `types.WebhookEvent`: push, tag, pull_request. -/
inductive WebhookEvent
  | push | tag | pullRequest
  deriving DecidableEq

/-- `types.WebhookData`, with Go zero values as field defaults. -/
structure WebhookData where
  event : WebhookEvent
  commitSHA : String := ""
  ref : String := ""
  commitLink : String := ""
  branch : String := ""
  branchLink : String := ""
  tag : String := ""
  tagLink : String := ""
  message : String := ""
  sender : String := ""
  pullRequestID : String := ""
  pullRequestLink : String := ""
  repo : WebhookDataRepo
  deriving DecidableEq

/-- `strings.TrimPrefix`: drop the leading occurrence of `p` from `s` when
present. -/
def trimPrefixStr (s p : String) : String :=
  if s.startsWith p then s.drop p.length else s

/-- `webhookDataFromPush`: build webhook data from a push hook; branch refs
give a push event, tag refs a tag event, anything else is rejected.  The Go
code reads `hook.Commits[0].URL` under the caller's non-empty guard; the
empty case is mapped to the zero value. -/
def webhookDataFromPush (hook : PushHook) : Except String WebhookData :=
  let sender := if hook.userName = "" then hook.userUsername else hook.userName
  let commitLink := match hook.commits with
    | c :: _ => c.url
    | [] => ""
  if hook.ref.startsWith "refs/heads/" then
    let branch := trimPrefixStr hook.ref "refs/heads/"
    Except.ok
      { event := WebhookEvent.push
        commitSHA := hook.after
        ref := hook.ref
        commitLink := commitLink
        sender := sender
        branch := branch
        branchLink := hook.project.webURL ++ "/tree/" ++ branch
        message := match hook.commits with | c :: _ => c.message | [] => ""
        repo := ⟨hook.project.pathWithNamespace, hook.project.webURL⟩ }
  else if hook.ref.startsWith "refs/tags/" then
    let tag := trimPrefixStr hook.ref "refs/tags/"
    Except.ok
      { event := WebhookEvent.tag
        commitSHA := hook.after
        ref := hook.ref
        commitLink := commitLink
        sender := sender
        tag := tag
        tagLink := hook.project.webURL ++ "/tree/" ++ tag
        message := "Tag " ++ tag
        repo := ⟨hook.project.pathWithNamespace, hook.project.webURL⟩ }
  else
    Except.error ("unsupported webhook ref " ++ hook.ref)

/-- `parsePushHook`: a decode failure is an error; a push with zero commits
(e.g. a tag deletion) is skipped by returning no webhook data; otherwise the
webhook data is built from the hook. -/
def parsePushHook (payload : Option PushHook) : Except String (Option WebhookData) :=
  match payload with
  | none => Except.error "decode error"
  | some push =>
    if push.commits.length = 0 then Except.ok none
    else
      match webhookDataFromPush push with
      | Except.error e => Except.error e
      | Except.ok w => Except.ok (some w)

/-- The last-commit block of a merge-request hook payload. -/
structure PRLastCommit where
  id : String
  url : String
  deriving DecidableEq

/-- The object_attributes block of a merge-request hook payload.  The `state`
field is the one read by the commented-out non-open filter. -/
structure PRObjectAttributes where
  iid : Int
  title : String
  url : String
  sourceBranch : String
  state : String
  lastCommit : PRLastCommit
  deriving DecidableEq

/-- The user block of a merge-request hook payload. -/
structure PRUser where
  name : String
  username : String
  deriving DecidableEq

/-- A decoded gitlab merge-request hook payload.  The `action` field is the
one read by the commented-out new-commits filter. -/
structure PullRequestHook where
  objectAttributes : PRObjectAttributes
  user : PRUser
  action : String
  project : HookProject
  deriving DecidableEq

/-- `webhookDataFromPullRequest`: build webhook data from a merge-request
hook; always produces a value. -/
def webhookDataFromPullRequest (hook : PullRequestHook) : WebhookData :=
  let sender := if hook.user.name = "" then hook.user.username else hook.user.name
  { event := WebhookEvent.pullRequest
    commitSHA := hook.objectAttributes.lastCommit.id
    ref := "refs/merge-requests/" ++ toString hook.objectAttributes.iid ++ "/head"
    commitLink := hook.objectAttributes.lastCommit.url
    branch := hook.objectAttributes.sourceBranch
    message := hook.objectAttributes.title
    sender := sender
    pullRequestID := toString hook.objectAttributes.iid
    pullRequestLink := hook.objectAttributes.url
    repo := ⟨hook.project.pathWithNamespace, hook.project.webURL⟩ }

/-- `parsePullRequestHook`: a decode failure is an error; every decoded hook
produces webhook data — the filters on pull-request state and action are
commented out in the source. -/
def parsePullRequestHook (payload : Option PullRequestHook) :
    Except String (Option WebhookData) :=
  match payload with
  | none => Except.error "decode error"
  | some prhook => Except.ok (some (webhookDataFromPullRequest prhook))

/-! ## Claim statements under test and concrete fixtures -/

/-- The skip-propagation claim as stated: after `advanceRunTasks` every
non-terminal task all of whose dependencies have status skipped has status
skipped — with no restriction on the dependency list being non-empty or on
its declared conditions. -/
def c2SkipPropagationAsStated : Prop :=
  ∀ (order : List String) (rc : RunConfigMap) (r : RunMap) (id : String)
    (t0 : RunTask) (rct : RunConfigTask),
    rc id = some rct → r id = some t0 → t0.status.isFinished = false →
    (∀ d ∈ rct.depends, ∃ dt, r d.taskID = some dt ∧ dt.status = RunTaskStatus.skipped) →
    id ∈ order →
    advanceRunTasks order rc r id = some { t0 with status := RunTaskStatus.skipped }

/-- The http status mapping claim as stated: BadRequest errors give status
400 and NotFound errors status 404, in the gateway as well as in the
configstore. -/
def c6StatusMappingAsStated : Prop :=
  ∀ e : Err,
    (e.kind = ErrKind.badRequest →
      (configstoreapi.httpError (some e)).map (fun resp => resp.status) = some 400 ∧
      (gatewayapi.httpError (some e)).map (fun resp => resp.status) = some 400) ∧
    (e.kind = ErrKind.notFound →
      (configstoreapi.httpError (some e)).map (fun resp => resp.status) = some 404 ∧
      (gatewayapi.httpError (some e)).map (fun resp => resp.status) = some 404)

/-- A secret fixture for the resolution tests: only the name and parent path
matter. -/
def mkSecret (name : String) (path : List String) : Secret :=
  { id := "", name := name, stype := SecretTypeInternal, data := [("k", "v")]
    parent := { ptype := ConfigTypeProjectGroup, id := "", path := path } }

/-- A variable fixture for the shadowing tests. -/
def mkVariable (name : String) (path : List String) : Variable :=
  { id := "", name := name, values := [⟨"secret01", "secretvar01"⟩]
    parent := { ptype := ConfigTypeProjectGroup, id := "", path := path } }

/-- The variable parent path of the `TestGetVarValueMatchingSecret` tree
cases. -/
def varPPFixture : List String := ["org", "org01", "projectgroup01", "projectgroup02"]

/-- The deepest-first secret list of the multiple-secrets test case: a child
of the variable scope, the variable scope itself, and an ancestor. -/
def secretsFixture : List Secret :=
  [mkSecret "secret01" ["org", "org01", "projectgroup01", "projectgroup02", "project01"],
   mkSecret "secret01" ["org", "org01", "projectgroup01", "projectgroup02"],
   mkSecret "secret01" ["org", "org01", "projectgroup01"]]

/-- The deepest-first variable list of the `TestFilterOverridenVariables`
override case. -/
def varsFixture : List Variable :=
  [mkVariable "var04" ["org", "org01", "projectgroup02", "projectgroup03", "project02"],
   mkVariable "var03" ["org", "org01", "projectgroup01", "project01"],
   mkVariable "var02" ["org", "org01", "projectgroup01", "project01"],
   mkVariable "var02" ["org", "org01", "projectgroup01"],
   mkVariable "var01" ["org", "org01", "projectgroup01"],
   mkVariable "var01" ["org", "org01"]]

/-- A name validator accepting everything, standing in for
`util.ValidateName` in concrete scenarios. -/
def acceptAllNames : String → Bool := fun _ => true

/-- An injective stand-in for `util.EncodeSha256Hex` in concrete scenarios. -/
def hexId : String → String := fun s => s

/-- A read snapshot where every parent reference resolves to `parent01` and
no secret or variable exists yet. -/
def emptyReadDB : ReadDB :=
  { resolveConfigID := fun _ _ => Except.ok "parent01"
    getSecretByName := fun _ _ => none
    getVariableByName := fun _ _ => none }

/-- A read snapshot where `secret01` already exists under `parent01` (and a
variable `var01` likewise). -/
def dupReadDB : ReadDB :=
  { resolveConfigID := fun _ _ => Except.ok "parent01"
    getSecretByName := fun pid n =>
      if pid = "parent01" ∧ n = "secret01" then some (mkSecret "secret01" []) else none
    getVariableByName := fun pid n =>
      if pid = "parent01" ∧ n = "var01" then some (mkVariable "var01" []) else none }

/-- A fresh datamanager: every change group at revision zero, empty log. -/
def freshDM : DataManager := { revisions := fun _ => 0, wal := [] }

/-- A well-formed secret creation request named `secret01`. -/
def secretReq : Secret :=
  { id := "", name := "secret01", stype := SecretTypeInternal, data := [("k", "v")]
    parent := { ptype := ConfigTypeProject, id := "proj01", path := [] } }

/-- A well-formed variable creation request named `var01`. -/
def variableReq : Variable :=
  { id := "", name := "var01", values := [⟨"secret01", "secretvar01"⟩]
    parent := { ptype := ConfigTypeProject, id := "proj01", path := [] } }

/-- A push hook fixture with no commits (a tag deletion). -/
def emptyPushHook : PushHook :=
  { ref := "refs/tags/v1", after := "", commits := []
    userName := "user01", userUsername := "user01"
    project := ⟨"org01/project01", "https://example.com/org01/project01"⟩ }

/-- A merge-request hook fixture for a closed pull request with a non-commit
action, as dropped by the commented-out filter. -/
def closedPRHook : PullRequestHook :=
  { objectAttributes :=
      { iid := 12, title := "a change", url := "https://example.com/mr/12"
        sourceBranch := "feature", state := "closed"
        lastCommit := ⟨"abcd", "https://example.com/commit/abcd"⟩ }
    user := ⟨"user01", "user01"⟩
    action := "close"
    project := ⟨"org01/project01", "https://example.com/org01/project01"⟩ }

/-! # Theorems

First the in-source test vectors, evaluated on the modelled functions; then
the verified properties. -/

theorem advanceRunTasks_test_top_level_not_started :
    advanceRunTasks testOrder testRC testRun "task01"
        = some (mkRunTask "task01" .notStarted false) ∧
    advanceRunTasks testOrder testRC testRun "task02"
        = some (mkRunTask "task02" .notStarted false) ∧
    advanceRunTasks testOrder testRC testRun "task05"
        = some (mkRunTask "task05" .notStarted false) := by
  exact ⟨rfl, rfl, rfl⟩

theorem advanceRunTasks_test_parent_skipped :
    advanceRunTasks testOrder (setRCSkip testRC "task01")
        (setRunStatus testRun "task01" .skipped) "task02"
      = some (mkRunTask "task02" .skipped false) := by
  rfl

theorem advanceRunTasks_test_all_parents_skipped :
    advanceRunTasks testOrder (setRCSkip (setRCSkip testRC "task03") "task04")
        (setRunStatus (setRunStatus testRun "task03" .skipped) "task04" .skipped) "task05"
      = some (mkRunTask "task05" .skipped false) := by
  rfl

theorem advanceRunTasks_test_not_all_parents_skipped :
    advanceRunTasks testOrder (setRCSkip testRC "task03")
        (setRunStatus (setRunStatus testRun "task03" .skipped) "task04" .success) "task05"
      = some (mkRunTask "task05" .notStarted false) := by
  rfl

theorem getTasksToRun_test_top_level :
    (getTasksToRun testOrder testRC testRun).map (fun t => t.id)
      = ["task01", "task03", "task04"] := by
  rfl

theorem getTasksToRun_test_skipped_not_run :
    (getTasksToRun testOrder (setRCSkip testRC "task01")
        (setRunStatus (setRunStatus testRun "task01" .skipped) "task02" .skipped)).map
        (fun t => t.id)
      = ["task03", "task04"] := by
  rfl

theorem getTasksToRun_test_needs_approval_not_approved :
    (getTasksToRun testOrder (setRCNeedsApproval testRC "task01") testRun).map (fun t => t.id)
      = ["task03", "task04"] := by
  rfl

theorem getTasksToRun_test_needs_approval_approved :
    (getTasksToRun testOrder (setRCNeedsApproval testRC "task01")
        (setRunApproved testRun "task01")).map (fun t => t.id)
      = ["task01", "task03", "task04"] := by
  rfl

theorem GetVarValueMatchingSecret_test_multiple_secrets :
    GetVarValueMatchingSecret ⟨"secret01", "secretvar01"⟩ varPPFixture secretsFixture
      = some (mkSecret "secret01" ["org", "org01", "projectgroup01", "projectgroup02"]) := by
  rfl

theorem GetVarValueMatchingSecret_test_child_not_eligible :
    GetVarValueMatchingSecret ⟨"secret01", "secretvar01"⟩ varPPFixture
        [mkSecret "secret01" ["org", "org01", "projectgroup01", "projectgroup02", "project01"]]
      = none := by
  rfl

theorem GetVarValueMatchingSecret_test_empty :
    GetVarValueMatchingSecret ⟨"secret01", "secretvar01"⟩ varPPFixture [] = none := by
  rfl

theorem FilterOverridenVariables_test_overrides :
    FilterOverridenVariables varsFixture =
      [mkVariable "var04" ["org", "org01", "projectgroup02", "projectgroup03", "project02"],
       mkVariable "var03" ["org", "org01", "projectgroup01", "project01"],
       mkVariable "var02" ["org", "org01", "projectgroup01", "project01"],
       mkVariable "var01" ["org", "org01", "projectgroup01"]] := by
  rfl

/-- C6 counterexample: the gateway `httpError` maps a NotFound error to
status 500 with an empty body, not to 404, so the claimed mapping fails for
the gateway. -/
theorem httpError_gateway_notFound_counterexample : ¬ c6StatusMappingAsStated := by
  intro h
  have h2 := (h ⟨ErrKind.notFound, "org org01 does not exist"⟩).2 rfl
  exact absurd h2.2 (by decide)

/-- C6 (amended): the configstore `httpError` returns 400 for BadRequest and
404 for NotFound with the error message, and 500 with a generic message for
every other kind; the gateway `httpError` returns 400 only for BadRequest and
500 with an empty body for every other kind, NotFound included, so no error
detail is exposed there. -/
theorem httpError_status_mapping :
    ∀ e : Err,
      (e.kind = ErrKind.badRequest →
        configstoreapi.httpError (some e) = some ⟨400, e.msg⟩ ∧
        gatewayapi.httpError (some e) = some ⟨400, e.msg⟩) ∧
      (e.kind = ErrKind.notFound →
        configstoreapi.httpError (some e) = some ⟨404, e.msg⟩ ∧
        gatewayapi.httpError (some e) = some ⟨500, ""⟩) ∧
      ((e.kind = ErrKind.conflict ∨ e.kind = ErrKind.internal) →
        configstoreapi.httpError (some e) = some ⟨500, "internal server error"⟩ ∧
        gatewayapi.httpError (some e) = some ⟨500, ""⟩) ∧
      configstoreapi.httpError none = none ∧
      gatewayapi.httpError none = none := by
  intro e
  obtain ⟨k, m⟩ := e
  cases k <;>
    simp [configstoreapi.httpError, gatewayapi.httpError, ErrorResponseFromError]

/-- Witness for the amended C6 mapping at concrete errors of each kind. -/
theorem httpError_status_mapping_witness :
    configstoreapi.httpError (some ⟨ErrKind.notFound, "user u1 does not exist"⟩)
        = some ⟨404, "user u1 does not exist"⟩ ∧
    gatewayapi.httpError (some ⟨ErrKind.notFound, "user u1 does not exist"⟩)
        = some ⟨500, ""⟩ ∧
    configstoreapi.httpError (some ⟨ErrKind.badRequest, "cannot parse limit"⟩)
        = some ⟨400, "cannot parse limit"⟩ ∧
    configstoreapi.httpError (some ⟨ErrKind.internal, "bug detail"⟩)
        = some ⟨500, "internal server error"⟩ :=
  ⟨((httpError_status_mapping ⟨ErrKind.notFound, "user u1 does not exist"⟩).2.1 rfl).1,
   ((httpError_status_mapping ⟨ErrKind.notFound, "user u1 does not exist"⟩).2.1 rfl).2,
   ((httpError_status_mapping ⟨ErrKind.badRequest, "cannot parse limit"⟩).1 rfl).1,
   ((httpError_status_mapping ⟨ErrKind.internal, "bug detail"⟩).2.2.1 (Or.inr rfl)).1⟩

/-- C7: every decoded merge-request hook produces webhook data, whatever its
state or action — the non-open / no-new-commits filters are commented out. -/
theorem parsePullRequestHook_no_filter :
    ∀ hook : PullRequestHook,
      parsePullRequestHook (some hook)
          = Except.ok (some (webhookDataFromPullRequest hook)) ∧
      parsePullRequestHook (some hook) ≠ Except.ok none := by
  intro hook
  exact ⟨rfl, by simp [parsePullRequestHook]⟩

/-- A closed pull request with a close action still yields webhook data. -/
theorem parsePullRequestHook_closed_pr :
    parsePullRequestHook (some closedPRHook)
      = Except.ok (some (webhookDataFromPullRequest closedPRHook)) :=
  (parsePullRequestHook_no_filter closedPRHook).1

/-- C9: a push or tag-push payload with an empty commit list (e.g. a tag
deletion) yields no webhook data and no error. -/
theorem parsePushHook_empty_commits :
    ∀ push : PushHook, push.commits = [] → parsePushHook (some push) = Except.ok none := by
  intro push h
  simp [parsePushHook, h]

/-- Witness for C9 at a concrete tag-deletion payload. -/
theorem parsePushHook_empty_commits_witness :
    parsePushHook (some emptyPushHook) = Except.ok none :=
  parsePushHook_empty_commits emptyPushHook rfl

/-- C10: in the list-handler limit prologue a negative parsed limit is a
BadRequest, a missing limit takes the default (10 for the configstore users
handler), an unparsable limit is a BadRequest, and a limit above the maximum
(20 for configstore users) is clamped, not rejected. -/
theorem listLimit_spec :
    (∀ dflt maxLimit n : Int, n < 0 →
       listLimit dflt maxLimit (some (some n))
         = Except.error ⟨ErrKind.badRequest, "limit must be greater or equal than 0"⟩) ∧
    (∀ dflt maxLimit : Int, 0 ≤ dflt → dflt ≤ maxLimit →
       listLimit dflt maxLimit none = Except.ok dflt) ∧
    (∀ dflt maxLimit n : Int, 0 ≤ n → maxLimit < n →
       listLimit dflt maxLimit (some (some n)) = Except.ok maxLimit) ∧
    (∀ dflt maxLimit : Int,
       listLimit dflt maxLimit (some none)
         = Except.error ⟨ErrKind.badRequest, "cannot parse limit"⟩) ∧
    usersListLimit none = Except.ok 10 ∧
    (∀ n : Int, 20 < n → usersListLimit (some (some n)) = Except.ok 20) := by
  refine ⟨?_, ?_, ?_, ?_, ?_, ?_⟩
  · intro dflt maxLimit n h
    simp only [listLimit, listLimitChecks]
    rw [if_pos h]
  · intro dflt maxLimit h1 h2
    simp only [listLimit, listLimitChecks]
    rw [if_neg (by omega), if_neg (by omega)]
  · intro dflt maxLimit n h1 h2
    simp only [listLimit, listLimitChecks]
    rw [if_neg (by omega), if_pos (by omega)]
  · intro dflt maxLimit
    rfl
  · rfl
  · intro n h
    simp only [usersListLimit, listLimit, listLimitChecks, DefaultUsersLimit, MaxUsersLimit]
    rw [if_neg (by omega), if_pos (by omega)]

/-- Witness for C10 at concrete limits of the configstore users handler. -/
theorem listLimit_spec_witness :
    listLimit 10 20 (some (some (-1)))
        = Except.error ⟨ErrKind.badRequest, "limit must be greater or equal than 0"⟩ ∧
    listLimit 10 20 none = Except.ok 10 ∧
    listLimit 10 20 (some (some 100)) = Except.ok 20 ∧
    usersListLimit (some (some 21)) = Except.ok 20 :=
  ⟨listLimit_spec.1 10 20 (-1) (by decide),
   listLimit_spec.2.1 10 20 (by decide) (by decide),
   listLimit_spec.2.2.1 10 20 100 (by decide) (by decide),
   listLimit_spec.2.2.2.2.2 21 (by decide)⟩

theorem isAncestorPath_antisymm (p q : List String)
    (h1 : isAncestorPath p q = true) (h2 : isAncestorPath q p = true) : p = q := by
  induction p generalizing q with
  | nil =>
    cases q with
    | nil => rfl
    | cons b bs => simp [isAncestorPath] at h2
  | cons a as ih =>
    cases q with
    | nil => simp [isAncestorPath] at h1
    | cons b bs =>
      simp only [isAncestorPath, Bool.and_eq_true, beq_iff_eq] at h1 h2
      obtain ⟨rfl, h1a⟩ := h1
      obtain ⟨-, h2a⟩ := h2
      rw [ih bs h1a h2a]

theorem find?_first_max {α : Type} (p : α → Bool) (depth : α → Nat) (l : List α) (x : α)
    (hsorted : l.Pairwise (fun a b => depth b ≤ depth a))
    (hfind : l.find? p = some x) :
    ∀ y ∈ l, p y = true → depth y ≤ depth x := by
  induction l with
  | nil => simp at hfind
  | cons a rest ih =>
    rw [List.pairwise_cons] at hsorted
    by_cases ha : p a = true
    · rw [List.find?_cons_of_pos _ ha] at hfind
      injection hfind with h
      subst h
      intro y hy hp
      rcases List.mem_cons.mp hy with rfl | h2
      · exact le_refl _
      · exact hsorted.1 y h2
    · rw [List.find?_cons_of_neg _ ha] at hfind
      intro y hy hp
      rcases List.mem_cons.mp hy with rfl | h2
      · exact absurd hp ha
      · exact ih hsorted.2 hfind y h2 hp

/-- C3: a secret returned by `GetVarValueMatchingSecret` carries the
referenced name and a parent path that is an ancestor of or equal to the
variable's parent path — in particular never a path strictly below it; when
no secret with the referenced name has an ancestor-or-equal path the result
is null; and on a deepest-parent-first list the result is the deepest
eligible candidate. -/
theorem GetVarValueMatchingSecret_scope :
    (∀ (varValue : VariableValue) (varParentPath : List String)
       (secrets : List Secret) (s : Secret),
       GetVarValueMatchingSecret varValue varParentPath secrets = some s →
         s.name = varValue.secretName ∧
         isAncestorPath s.parent.path varParentPath = true ∧
         ¬ (isAncestorPath varParentPath s.parent.path = true ∧
            s.parent.path ≠ varParentPath)) ∧
    (∀ (varValue : VariableValue) (varParentPath : List String) (secrets : List Secret),
       (∀ s ∈ secrets, ¬ (s.name = varValue.secretName ∧
           isAncestorPath s.parent.path varParentPath = true)) →
       GetVarValueMatchingSecret varValue varParentPath secrets = none) ∧
    (∀ (varValue : VariableValue) (varParentPath : List String)
       (secrets : List Secret) (s : Secret),
       secrets.Pairwise (fun a b => b.parent.path.length ≤ a.parent.path.length) →
       GetVarValueMatchingSecret varValue varParentPath secrets = some s →
       ∀ s' ∈ secrets, s'.name = varValue.secretName →
         isAncestorPath s'.parent.path varParentPath = true →
         s'.parent.path.length ≤ s.parent.path.length) := by
  refine ⟨?_, ?_, ?_⟩
  · intro varValue varParentPath secrets s hfind
    have hp := List.find?_some hfind
    simp only [Bool.and_eq_true, beq_iff_eq] at hp
    refine ⟨hp.1, hp.2, ?_⟩
    rintro ⟨hanc, hne⟩
    exact hne (isAncestorPath_antisymm _ _ hp.2 hanc)
  · intro varValue varParentPath secrets h
    apply List.find?_eq_none.mpr
    intro s hs hp
    simp only [Bool.and_eq_true, beq_iff_eq] at hp
    exact h s hs ⟨hp.1, hp.2⟩
  · intro varValue varParentPath secrets s hsorted hfind s' hs' hname hanc
    refine find?_first_max _ (fun u => u.parent.path.length) secrets s hsorted hfind s' hs' ?_
    simp only [Bool.and_eq_true, beq_iff_eq]
    exact ⟨hname, hanc⟩

/-- Witness for C3 on the multiple-secrets test data: the secret at the
variable's own scope is returned, it is in scope, and it is at least as deep
as the eligible ancestor at `org/org01/projectgroup01`. -/
theorem GetVarValueMatchingSecret_scope_witness :
    ((mkSecret "secret01" ["org", "org01", "projectgroup01", "projectgroup02"]).name
        = "secret01" ∧
     isAncestorPath
        (mkSecret "secret01" ["org", "org01", "projectgroup01", "projectgroup02"]).parent.path
        varPPFixture = true ∧
     ¬ (isAncestorPath varPPFixture
          (mkSecret "secret01" ["org", "org01", "projectgroup01", "projectgroup02"]).parent.path
            = true ∧
        (mkSecret "secret01" ["org", "org01", "projectgroup01", "projectgroup02"]).parent.path
            ≠ varPPFixture)) ∧
    GetVarValueMatchingSecret ⟨"secret02", "secretvar01"⟩ varPPFixture secretsFixture = none ∧
    (mkSecret "secret01" ["org", "org01", "projectgroup01"]).parent.path.length ≤
      (mkSecret "secret01" ["org", "org01", "projectgroup01", "projectgroup02"]).parent.path.length :=
  ⟨GetVarValueMatchingSecret_scope.1 ⟨"secret01", "secretvar01"⟩ varPPFixture
      secretsFixture _ rfl,
   GetVarValueMatchingSecret_scope.2.1 ⟨"secret02", "secretvar01"⟩ varPPFixture
      secretsFixture (by decide),
   GetVarValueMatchingSecret_scope.2.2 ⟨"secret01", "secretvar01"⟩ varPPFixture
      secretsFixture _ (by decide) rfl
      (mkSecret "secret01" ["org", "org01", "projectgroup01"]) (by decide) rfl (by decide)⟩

theorem filterOverridenAux_sublist (seen : List String) (vars : List Variable) :
    (filterOverridenAux seen vars).Sublist vars := by
  induction vars generalizing seen with
  | nil => simp [filterOverridenAux]
  | cons v vs ih =>
    simp only [filterOverridenAux]
    split
    · exact (ih seen).cons v
    · exact (ih (v.name :: seen)).cons₂ v

theorem filterOverridenAux_mem_first (vars : List Variable) (w : Variable) :
    ∀ seen : List String, w ∈ filterOverridenAux seen vars →
      ¬ w.name ∈ seen ∧ vars.find? (fun v => v.name == w.name) = some w := by
  induction vars with
  | nil =>
    intro seen hw
    simp [filterOverridenAux] at hw
  | cons v vs ih =>
    intro seen hw
    simp only [filterOverridenAux] at hw
    by_cases hs : v.name ∈ seen
    · rw [if_pos hs] at hw
      obtain ⟨h1, h2⟩ := ih seen hw
      have hvw : (v.name == w.name) = false := by
        simp only [beq_eq_false_iff_ne, ne_eq]
        intro h
        exact h1 (h ▸ hs)
      refine ⟨h1, ?_⟩
      rw [List.find?_cons]
      simp only [hvw]
      exact h2
    · rw [if_neg hs] at hw
      rcases List.mem_cons.mp hw with rfl | hw2
      · refine ⟨hs, ?_⟩
        rw [List.find?_cons]
        simp
      · obtain ⟨h1, h2⟩ := ih (v.name :: seen) hw2
        have hvw : (v.name == w.name) = false := by
          simp only [beq_eq_false_iff_ne, ne_eq]
          intro h
          exact h1 (by rw [← h]; exact List.mem_cons_self _ _)
        refine ⟨fun hmem => h1 (List.mem_cons_of_mem _ hmem), ?_⟩
        rw [List.find?_cons]
        simp only [hvw]
        exact h2

theorem filterOverridenAux_name_covered (vars : List Variable) (v : Variable) :
    ∀ seen : List String, v ∈ vars → ¬ v.name ∈ seen →
      ∃ w ∈ filterOverridenAux seen vars, w.name = v.name := by
  induction vars with
  | nil =>
    intro seen hv _
    cases hv
  | cons a vs ih =>
    intro seen hv hs
    simp only [filterOverridenAux]
    by_cases ha : a.name ∈ seen
    · rw [if_pos ha]
      rcases List.mem_cons.mp hv with rfl | hv2
      · exact absurd ha hs
      · exact ih seen hv2 hs
    · rw [if_neg ha]
      rcases List.mem_cons.mp hv with rfl | hv2
      · exact ⟨v, List.mem_cons_self _ _, rfl⟩
      · by_cases hva : v.name = a.name
        · exact ⟨a, List.mem_cons_self _ _, hva.symm⟩
        · have hext : ¬ v.name ∈ a.name :: seen := by
            intro hmem
            rcases List.mem_cons.mp hmem with h | h
            · exact hva h
            · exact hs h
          obtain ⟨w, hw1, hw2⟩ := ih (a.name :: seen) hv2 hext
          exact ⟨w, List.mem_cons_of_mem _ hw1, hw2⟩

theorem filterOverridenAux_names_nodup (vars : List Variable) :
    ∀ seen : List String, ((filterOverridenAux seen vars).map (fun v => v.name)).Nodup := by
  induction vars with
  | nil =>
    intro seen
    simp [filterOverridenAux]
  | cons v vs ih =>
    intro seen
    simp only [filterOverridenAux]
    split
    · exact ih seen
    · simp only [List.map_cons, List.nodup_cons]
      refine ⟨?_, ih (v.name :: seen)⟩
      intro hmem
      obtain ⟨w, hw, hwn⟩ := List.mem_map.mp hmem
      have h1 := (filterOverridenAux_mem_first vs w (v.name :: seen) hw).1
      exact h1 (by rw [hwn]; exact List.mem_cons_self _ _)

theorem filterOverridenAux_nodup_id (vars : List Variable) :
    ∀ seen : List String, (∀ v ∈ vars, ¬ v.name ∈ seen) →
      (vars.map (fun v => v.name)).Nodup → filterOverridenAux seen vars = vars := by
  induction vars with
  | nil =>
    intro seen _ _
    rfl
  | cons v vs ih =>
    intro seen hseen hnd
    simp only [List.map_cons, List.nodup_cons] at hnd
    simp only [filterOverridenAux]
    rw [if_neg (hseen v (List.mem_cons_self _ _))]
    congr 1
    apply ih (v.name :: seen) ?hs hnd.2
    case hs =>
      intro u hu hmem
      rcases List.mem_cons.mp hmem with h | h
      · exact hnd.1 (h ▸ List.mem_map_of_mem _ hu)
      · exact hseen u (List.mem_cons_of_mem _ hu) h

/-- C4: `FilterOverridenVariables` returns a subsequence of its input that
keeps exactly the first occurrence of each variable name and nothing else: it
is the identity on a list with duplicate-free names and empty on the empty
list. -/
theorem FilterOverridenVariables_first_occurrences :
    (∀ vars : List Variable, (FilterOverridenVariables vars).Sublist vars) ∧
    (∀ (vars : List Variable) (w : Variable), w ∈ FilterOverridenVariables vars →
       vars.find? (fun v => v.name == w.name) = some w) ∧
    (∀ (vars : List Variable) (v : Variable), v ∈ vars →
       ∃ w ∈ FilterOverridenVariables vars, w.name = v.name) ∧
    (∀ vars : List Variable,
       ((FilterOverridenVariables vars).map (fun v => v.name)).Nodup) ∧
    (∀ vars : List Variable, (vars.map (fun v => v.name)).Nodup →
       FilterOverridenVariables vars = vars) ∧
    FilterOverridenVariables [] = [] := by
  refine ⟨?_, ?_, ?_, ?_, ?_, rfl⟩
  · intro vars
    exact filterOverridenAux_sublist [] vars
  · intro vars w hw
    exact (filterOverridenAux_mem_first vars w [] hw).2
  · intro vars v hv
    exact filterOverridenAux_name_covered vars v [] hv (by simp)
  · intro vars
    exact filterOverridenAux_names_nodup vars []
  · intro vars h
    exact filterOverridenAux_nodup_id vars [] (by simp) h

/-- Witness for C4 on the override test data and on a duplicate-free list. -/
theorem FilterOverridenVariables_first_occurrences_witness :
    varsFixture.find?
        (fun v => v.name == (mkVariable "var01" ["org", "org01", "projectgroup01"]).name)
        = some (mkVariable "var01" ["org", "org01", "projectgroup01"]) ∧
    (∃ w ∈ FilterOverridenVariables varsFixture,
        w.name = (mkVariable "var02" ["org", "org01", "projectgroup01"]).name) ∧
    FilterOverridenVariables [mkVariable "var01" [], mkVariable "var02" []]
        = [mkVariable "var01" [], mkVariable "var02" []] :=
  ⟨FilterOverridenVariables_first_occurrences.2.1 varsFixture
      (mkVariable "var01" ["org", "org01", "projectgroup01"]) (by decide),
   FilterOverridenVariables_first_occurrences.2.2.1 varsFixture
      (mkVariable "var02" ["org", "org01", "projectgroup01"]) (by decide),
   FilterOverridenVariables_first_occurrences.2.2.2.2.1
      [mkVariable "var01" [], mkVariable "var02" []] (by decide)⟩

theorem createSecretTx_dup (sha256hex : String → String) (db : ReadDB)
    (dm : DataManager) (newID : String) (s : Secret) (pid : String) (s0 : Secret)
    (hres : db.resolveConfigID s.parent.ptype s.parent.id = Except.ok pid)
    (hdup : db.getSecretByName pid s.name = some s0) :
    createSecretTx sha256hex db dm newID s
      = Except.error ⟨ErrKind.badRequest, "secret already exists"⟩ := by
  simp only [createSecretTx, hres, hdup]

theorem createSecretTx_ok (sha256hex : String → String) (db : ReadDB)
    (dm : DataManager) (newID : String) (s : Secret)
    (p : Secret × List DMAction × ChangeGroupsUpdateToken)
    (h : createSecretTx sha256hex db dm newID s = Except.ok p) :
    p.2.2 = GetChangeGroupsUpdateTokens dm [sha256hex ("secretname-" ++ s.name)] := by
  unfold createSecretTx at h
  cases hres : db.resolveConfigID s.parent.ptype s.parent.id with
  | error e => simp [hres] at h
  | ok pid =>
    cases hdup : db.getSecretByName pid s.name with
    | some s0 => simp [hres, hdup] at h
    | none =>
      simp only [hres, hdup] at h
      injection h with h
      rw [← h]

theorem createSecretRead_badRequest (validName : String → Bool)
    (sha256hex : String → String) (db : ReadDB) (dm : DataManager)
    (newID : String) (s : Secret)
    (h : s.name = "" ∨ validName s.name = false ∨ s.stype ≠ SecretTypeInternal ∨
         s.data = [] ∨ s.parent.ptype = "" ∨ s.parent.id = "" ∨
         (s.parent.ptype ≠ ConfigTypeProject ∧ s.parent.ptype ≠ ConfigTypeProjectGroup) ∨
         (∃ pid s0, db.resolveConfigID s.parent.ptype s.parent.id = Except.ok pid ∧
            db.getSecretByName pid s.name = some s0)) :
    ∃ e, createSecretRead validName sha256hex db dm newID s = Except.error e ∧
      e.kind = ErrKind.badRequest := by
  unfold createSecretRead
  split_ifs with h1 h2 h3 h4 h5 h6 h7
  · exact ⟨_, rfl, rfl⟩
  · exact ⟨_, rfl, rfl⟩
  · exact ⟨_, rfl, rfl⟩
  · exact ⟨_, rfl, rfl⟩
  · exact ⟨_, rfl, rfl⟩
  · exact ⟨_, rfl, rfl⟩
  · exact ⟨_, rfl, rfl⟩
  · rcases h with hc | hc | hc | hc | hc | hc | hc | ⟨pid, s0, hres, hdup⟩
    · exact absurd hc h1
    · exact absurd (by simp [hc]) h2
    · exact absurd hc h3
    · exact absurd hc h4
    · exact absurd hc h5
    · exact absurd hc h6
    · exact absurd hc h7
    · exact ⟨_, createSecretTx_dup sha256hex db dm newID s pid s0 hres hdup, rfl⟩

theorem createSecretRead_ok_tx (validName : String → Bool)
    (sha256hex : String → String) (db : ReadDB) (dm : DataManager)
    (newID : String) (s : Secret)
    (p : Secret × List DMAction × ChangeGroupsUpdateToken)
    (h : createSecretRead validName sha256hex db dm newID s = Except.ok p) :
    createSecretTx sha256hex db dm newID s = Except.ok p := by
  unfold createSecretRead at h
  split_ifs at h
  exact h

theorem createVariableTx_dup (sha256hex : String → String) (db : ReadDB)
    (dm : DataManager) (newID : String) (v : Variable) (pid : String) (v0 : Variable)
    (hres : db.resolveConfigID v.parent.ptype v.parent.id = Except.ok pid)
    (hdup : db.getVariableByName pid v.name = some v0) :
    createVariableTx sha256hex db dm newID v
      = Except.error ⟨ErrKind.badRequest, "variable already exists"⟩ := by
  simp only [createVariableTx, hres, hdup]

theorem createVariableRead_badRequest (validName : String → Bool)
    (sha256hex : String → String) (db : ReadDB) (dm : DataManager)
    (newID : String) (v : Variable)
    (h : v.name = "" ∨ validName v.name = false ∨ v.values = [] ∨
         v.parent.ptype = "" ∨ v.parent.id = "" ∨
         (v.parent.ptype ≠ ConfigTypeProject ∧ v.parent.ptype ≠ ConfigTypeProjectGroup) ∨
         (∃ pid v0, db.resolveConfigID v.parent.ptype v.parent.id = Except.ok pid ∧
            db.getVariableByName pid v.name = some v0)) :
    ∃ e, createVariableRead validName sha256hex db dm newID v = Except.error e ∧
      e.kind = ErrKind.badRequest := by
  unfold createVariableRead
  split_ifs with h1 h2 h3 h4 h5 h6
  · exact ⟨_, rfl, rfl⟩
  · exact ⟨_, rfl, rfl⟩
  · exact ⟨_, rfl, rfl⟩
  · exact ⟨_, rfl, rfl⟩
  · exact ⟨_, rfl, rfl⟩
  · exact ⟨_, rfl, rfl⟩
  · rcases h with hc | hc | hc | hc | hc | hc | ⟨pid, v0, hres, hdup⟩
    · exact absurd hc h1
    · exact absurd (by simp [hc]) h2
    · exact absurd hc h3
    · exact absurd hc h4
    · exact absurd hc h5
    · exact absurd hc h6
    · exact ⟨_, createVariableTx_dup sha256hex db dm newID v pid v0 hres hdup, rfl⟩

/-- C5: a `CreateSecret` or `CreateVariable` call that fails validation
(empty name, invalid name, wrong secret type, empty data or values, missing
or invalid parent) or that finds an entity of the same name under the same
resolved parent returns a BadRequest error and performs no `WriteWal`: the
datamanager state is returned unchanged. -/
theorem create_duplicate_or_invalid_badRequest :
    (∀ (validName : String → Bool) (sha256hex : String → String) (db : ReadDB)
       (dm : DataManager) (newID : String) (s : Secret),
       (s.name = "" ∨ validName s.name = false ∨ s.stype ≠ SecretTypeInternal ∨
        s.data = [] ∨ s.parent.ptype = "" ∨ s.parent.id = "" ∨
        (s.parent.ptype ≠ ConfigTypeProject ∧ s.parent.ptype ≠ ConfigTypeProjectGroup) ∨
        (∃ pid s0, db.resolveConfigID s.parent.ptype s.parent.id = Except.ok pid ∧
           db.getSecretByName pid s.name = some s0)) →
       ∃ e, CreateSecret validName sha256hex db dm newID s = (Except.error e, dm) ∧
         e.kind = ErrKind.badRequest) ∧
    (∀ (validName : String → Bool) (sha256hex : String → String) (db : ReadDB)
       (dm : DataManager) (newID : String) (v : Variable),
       (v.name = "" ∨ validName v.name = false ∨ v.values = [] ∨
        v.parent.ptype = "" ∨ v.parent.id = "" ∨
        (v.parent.ptype ≠ ConfigTypeProject ∧ v.parent.ptype ≠ ConfigTypeProjectGroup) ∨
        (∃ pid v0, db.resolveConfigID v.parent.ptype v.parent.id = Except.ok pid ∧
           db.getVariableByName pid v.name = some v0)) →
       ∃ e, CreateVariable validName sha256hex db dm newID v = (Except.error e, dm) ∧
         e.kind = ErrKind.badRequest) := by
  constructor
  · intro validName sha256hex db dm newID s h
    obtain ⟨e, he, hk⟩ := createSecretRead_badRequest validName sha256hex db dm newID s h
    exact ⟨e, by simp [CreateSecret, he], hk⟩
  · intro validName sha256hex db dm newID v h
    obtain ⟨e, he, hk⟩ := createVariableRead_badRequest validName sha256hex db dm newID v h
    exact ⟨e, by simp [CreateVariable, he], hk⟩

/-- Witness for C5: creating `secret01` (resp. `var01`) against a snapshot
where it already exists under the resolved parent fails with BadRequest and
leaves the fresh datamanager untouched. -/
theorem create_duplicate_or_invalid_badRequest_witness :
    (∃ e, CreateSecret acceptAllNames hexId dupReadDB freshDM "id01" secretReq
        = (Except.error e, freshDM) ∧ e.kind = ErrKind.badRequest) ∧
    (∃ e, CreateVariable acceptAllNames hexId dupReadDB freshDM "id02" variableReq
        = (Except.error e, freshDM) ∧ e.kind = ErrKind.badRequest) :=
  ⟨create_duplicate_or_invalid_badRequest.1 acceptAllNames hexId dupReadDB freshDM
      "id01" secretReq
      (Or.inr (Or.inr (Or.inr (Or.inr (Or.inr (Or.inr (Or.inr
        ⟨"parent01", mkSecret "secret01" [], rfl, rfl⟩))))))),
   create_duplicate_or_invalid_badRequest.2 acceptAllNames hexId dupReadDB freshDM
      "id02" variableReq
      (Or.inr (Or.inr (Or.inr (Or.inr (Or.inr (Or.inr
        ⟨"parent01", mkVariable "var01" [], rfl, rfl⟩))))))⟩

/-- C8: two `CreateSecret` calls for the same name whose read transactions
both run against the same datamanager state each capture the change-group
token named `sha256hex ("secretname-" ++ name)` at its current revision; when
the write phases are then serialized, the first `WriteWal` succeeds and the
second fails with a Conflict error. -/
theorem CreateSecret_concurrent_conflict :
    ∀ (validName : String → Bool) (sha256hex : String → String) (db : ReadDB)
      (dm0 : DataManager) (nid1 nid2 : String) (s1 s2 : Secret)
      (p1 p2 : Secret × List DMAction × ChangeGroupsUpdateToken),
      s1.name = s2.name →
      createSecretRead validName sha256hex db dm0 nid1 s1 = Except.ok p1 →
      createSecretRead validName sha256hex db dm0 nid2 s2 = Except.ok p2 →
      p1.2.2 = ChangeGroupsUpdateToken.mk
          [(sha256hex ("secretname-" ++ s1.name),
            dm0.revisions (sha256hex ("secretname-" ++ s1.name)))] ∧
      p2.2.2 = ChangeGroupsUpdateToken.mk
          [(sha256hex ("secretname-" ++ s2.name),
            dm0.revisions (sha256hex ("secretname-" ++ s2.name)))] ∧
      (∃ sOut, (createSecretWrite dm0 p1).1 = Except.ok sOut) ∧
      (∃ e, (createSecretWrite (createSecretWrite dm0 p1).2 p2).1 = Except.error e ∧
        e.kind = ErrKind.conflict) := by
  intro validName sha256hex db dm0 nid1 nid2 s1 s2 p1 p2 hname h1 h2
  have hc1 := createSecretTx_ok sha256hex db dm0 nid1 s1 p1
    (createSecretRead_ok_tx validName sha256hex db dm0 nid1 s1 p1 h1)
  have hc2 := createSecretTx_ok sha256hex db dm0 nid2 s2 p2
    (createSecretRead_ok_tx validName sha256hex db dm0 nid2 s2 p2 h2)
  simp only [GetChangeGroupsUpdateTokens, List.map_cons, List.map_nil] at hc1 hc2
  refine ⟨hc1, hc2, ?_, ?_⟩
  · refine ⟨p1.1, ?_⟩
    simp only [createSecretWrite, WriteWal, hc1]
    simp
  · refine ⟨⟨ErrKind.conflict, "concurrent update"⟩, ?_, rfl⟩
    simp only [createSecretWrite, WriteWal, hc1, hc2, hname]
    simp

/-- Witness for C8: two concurrent `CreateSecret` calls for `secret01`
against a fresh datamanager — the serialized first write succeeds, the second
fails with Conflict. -/
theorem CreateSecret_concurrent_conflict_witness :
    (∃ sOut,
      (createSecretWrite freshDM
        (⟨"id01", "secret01", "internal", [("k", "v")], ⟨"project", "parent01", []⟩⟩,
         [⟨"put", "secret", "id01",
           DMData.secretData
             ⟨"id01", "secret01", "internal", [("k", "v")], ⟨"project", "parent01", []⟩⟩⟩],
         ⟨[("secretname-secret01", 0)]⟩)).1 = Except.ok sOut) ∧
    (∃ e,
      (createSecretWrite
        (createSecretWrite freshDM
          (⟨"id01", "secret01", "internal", [("k", "v")], ⟨"project", "parent01", []⟩⟩,
           [⟨"put", "secret", "id01",
             DMData.secretData
               ⟨"id01", "secret01", "internal", [("k", "v")], ⟨"project", "parent01", []⟩⟩⟩],
           ⟨[("secretname-secret01", 0)]⟩)).2
        (⟨"id02", "secret01", "internal", [("k", "v")], ⟨"project", "parent01", []⟩⟩,
         [⟨"put", "secret", "id02",
           DMData.secretData
             ⟨"id02", "secret01", "internal", [("k", "v")], ⟨"project", "parent01", []⟩⟩⟩],
         ⟨[("secretname-secret01", 0)]⟩)).1 = Except.error e ∧
      e.kind = ErrKind.conflict) :=
  ⟨(CreateSecret_concurrent_conflict acceptAllNames hexId emptyReadDB freshDM
      "id01" "id02" secretReq secretReq
      (⟨"id01", "secret01", "internal", [("k", "v")], ⟨"project", "parent01", []⟩⟩,
       [⟨"put", "secret", "id01",
         DMData.secretData
           ⟨"id01", "secret01", "internal", [("k", "v")], ⟨"project", "parent01", []⟩⟩⟩],
       ⟨[("secretname-secret01", 0)]⟩)
      (⟨"id02", "secret01", "internal", [("k", "v")], ⟨"project", "parent01", []⟩⟩,
       [⟨"put", "secret", "id02",
         DMData.secretData
           ⟨"id02", "secret01", "internal", [("k", "v")], ⟨"project", "parent01", []⟩⟩⟩],
       ⟨[("secretname-secret01", 0)]⟩)
      rfl rfl rfl).2.2.1,
   (CreateSecret_concurrent_conflict acceptAllNames hexId emptyReadDB freshDM
      "id01" "id02" secretReq secretReq
      (⟨"id01", "secret01", "internal", [("k", "v")], ⟨"project", "parent01", []⟩⟩,
       [⟨"put", "secret", "id01",
         DMData.secretData
           ⟨"id01", "secret01", "internal", [("k", "v")], ⟨"project", "parent01", []⟩⟩⟩],
       ⟨[("secretname-secret01", 0)]⟩)
      (⟨"id02", "secret01", "internal", [("k", "v")], ⟨"project", "parent01", []⟩⟩,
       [⟨"put", "secret", "id02",
         DMData.secretData
           ⟨"id02", "secret01", "internal", [("k", "v")], ⟨"project", "parent01", []⟩⟩⟩],
       ⟨[("secretname-secret01", 0)]⟩)
      rfl rfl rfl).2.2.2⟩

theorem depSatisfied_iff (r : RunMap) (d : RunConfigTaskDepend) :
    depSatisfied r d = true ↔
      ∃ dt, r d.taskID = some dt ∧ dt.status.isFinished = true ∧
        depStatusMatches d dt.status = true := by
  unfold depSatisfied
  cases h : r d.taskID with
  | none => simp
  | some dt => simp [Bool.and_eq_true]

theorem taskEligible_iff (r : RunMap) (rct : RunConfigTask) (t : RunTask) :
    taskEligible r rct t = true ↔
      t.status = RunTaskStatus.notStarted ∧ rct.skip = false ∧
      ∀ d ∈ rct.depends, ∃ dt, r d.taskID = some dt ∧ dt.status.isFinished = true ∧
        depStatusMatches d dt.status = true := by
  unfold taskEligible
  simp [Bool.and_eq_true, List.all_eq_true, depSatisfied_iff, Bool.not_eq_true',
    beq_iff_eq, and_assoc]

theorem getTasksToRunEntry_eq_some_iff (rc : RunConfigMap) (r : RunMap) (id : String)
    (t : RunTask) :
    getTasksToRunEntry rc r id = some t ↔
      ∃ rct, r id = some t ∧ rc id = some rct ∧ taskEligible r rct t = true ∧
        (rct.needsApproval = true → t.approved = true) := by
  unfold getTasksToRunEntry
  cases h1 : r id with
  | none => simp
  | some t' =>
    cases h2 : rc id with
    | none => simp
    | some rct' =>
      constructor
      · intro h
        dsimp only at h
        by_cases he : taskEligible r rct' t' = true
        · rw [if_pos he] at h
          by_cases ha : (rct'.needsApproval && !t'.approved) = true
          · rw [if_pos ha] at h
            cases h
          · rw [if_neg ha] at h
            injection h with h
            subst h
            refine ⟨rct', rfl, rfl, he, ?_⟩
            intro hna
            cases happ : t'.approved
            · exact absurd (by simp [hna, happ]) ha
            · rfl
        · rw [if_neg he] at h
          cases h
      · rintro ⟨rct, hr, hrc, he, happ⟩
        injection hr with hr
        injection hrc with hrc
        subst hr
        subst hrc
        have hna : (rct'.needsApproval && !t'.approved) = false := by
          cases hn : rct'.needsApproval
          · rfl
          · rw [happ hn]
            rfl
        dsimp only
        rw [if_pos he, if_neg (by simp [hna])]

/-- C1: `getTasksToRun` returns exactly the tasks whose status is
not_started, whose runconfig task is not skipped, whose dependencies are all
in a terminal status matching their (effective, default on_success) condition
sets, and which are approved whenever they need approval; in particular no
returned task has a status other than not_started. -/
theorem getTasksToRun_characterization :
    (∀ (order : List String) (rc : RunConfigMap) (r : RunMap) (t : RunTask),
       t ∈ getTasksToRun order rc r ↔
         ∃ id ∈ order, ∃ rct, r id = some t ∧ rc id = some rct ∧
           t.status = RunTaskStatus.notStarted ∧ rct.skip = false ∧
           (∀ d ∈ rct.depends, ∃ dt, r d.taskID = some dt ∧
              dt.status.isFinished = true ∧ depStatusMatches d dt.status = true) ∧
           (rct.needsApproval = true → t.approved = true)) ∧
    (∀ (order : List String) (rc : RunConfigMap) (r : RunMap) (t : RunTask),
       t ∈ getTasksToRun order rc r → t.status = RunTaskStatus.notStarted) := by
  constructor
  · intro order rc r t
    unfold getTasksToRun
    rw [List.mem_filterMap]
    constructor
    · rintro ⟨id, hid, hf⟩
      obtain ⟨rct, h1, h2, he, ha⟩ := (getTasksToRunEntry_eq_some_iff rc r id t).mp hf
      obtain ⟨hst, hsk, hdeps⟩ := (taskEligible_iff r rct t).mp he
      exact ⟨id, hid, rct, h1, h2, hst, hsk, hdeps, ha⟩
    · rintro ⟨id, hid, rct, h1, h2, hst, hsk, hdeps, ha⟩
      exact ⟨id, hid, (getTasksToRunEntry_eq_some_iff rc r id t).mpr
        ⟨rct, h1, h2, (taskEligible_iff r rct t).mpr ⟨hst, hsk, hdeps⟩, ha⟩⟩
  · intro order rc r t ht
    unfold getTasksToRun at ht
    rw [List.mem_filterMap] at ht
    obtain ⟨id, hid, hf⟩ := ht
    obtain ⟨rct, h1, h2, he, ha⟩ := (getTasksToRunEntry_eq_some_iff rc r id t).mp hf
    exact ((taskEligible_iff r rct t).mp he).1

/-- Witness for C1: in the approval test case, the approved task01 is
returned by `getTasksToRun`. -/
theorem getTasksToRun_characterization_witness :
    mkRunTask "task01" RunTaskStatus.notStarted true ∈
      getTasksToRun testOrder (setRCNeedsApproval testRC "task01")
        (setRunApproved testRun "task01") :=
  (getTasksToRun_characterization.1 testOrder (setRCNeedsApproval testRC "task01")
      (setRunApproved testRun "task01") (mkRunTask "task01" RunTaskStatus.notStarted true)).mpr
    ⟨"task01", by decide, { mkRCTask "task01" [] with needsApproval := true },
     rfl, rfl, rfl, rfl,
     by
       intro d hd
       simp [mkRCTask] at hd,
     fun _ => rfl⟩

theorem advanceTask_finished (r : RunMap) (rct : RunConfigTask) (t : RunTask)
    (h : t.status.isFinished = true) : advanceTask r rct t = t := by
  unfold advanceTask
  rw [if_pos h]

theorem advanceRunTasksStep_ne (rc : RunConfigMap) (r : RunMap) (a x : String)
    (hx : x ≠ a) : advanceRunTasksStep rc r a x = r x := by
  unfold advanceRunTasksStep
  cases r a <;> cases rc a <;> simp [updateRun, hx]

theorem advanceRunTasksStep_finished (rc : RunConfigMap) (r : RunMap) (a x : String)
    (t : RunTask) (hx : r x = some t) (h : t.status.isFinished = true) :
    advanceRunTasksStep rc r a x = some t := by
  by_cases hax : x = a
  · subst hax
    unfold advanceRunTasksStep
    rw [hx]
    cases hrc : rc x with
    | none => exact hx
    | some rct => simp [updateRun, advanceTask_finished r rct t h]
  · rw [advanceRunTasksStep_ne rc r a x hax]
    exact hx

theorem advanceRunTasks_finished (order : List String) (rc : RunConfigMap) :
    ∀ (r : RunMap) (x : String) (t : RunTask), r x = some t →
      t.status.isFinished = true → advanceRunTasks order rc r x = some t := by
  induction order with
  | nil =>
    intro r x t hx _
    exact hx
  | cons a l ih =>
    intro r x t hx h
    exact ih (advanceRunTasksStep rc r a) x t
      (advanceRunTasksStep_finished rc r a x t hx h) h

theorem depStatusMatches_skipped (d : RunConfigTaskDepend)
    (h : ¬ DependCondition.onSkipped ∈ d.conditions) :
    depStatusMatches d RunTaskStatus.skipped = false := by
  unfold depStatusMatches effectiveConditions
  cases hc : d.conditions with
  | nil => rfl
  | cons c cs =>
    rw [List.any_eq_false]
    intro x hx
    cases x with
    | onSuccess => simp [conditionMatches]
    | onFailure => simp [conditionMatches]
    | onSkipped => exact absurd (by rw [hc]; exact hx) h

theorem advanceTask_skip (r : RunMap) (rct : RunConfigTask) (t0 : RunTask)
    (ht : t0.status.isFinished = false) (hne : rct.depends ≠ [])
    (hnosk : ∀ d ∈ rct.depends, ¬ DependCondition.onSkipped ∈ d.conditions)
    (hdeps : ∀ d ∈ rct.depends, ∃ dt, r d.taskID = some dt ∧
       dt.status = RunTaskStatus.skipped) :
    advanceTask r rct t0 = { t0 with status := RunTaskStatus.skipped } := by
  unfold advanceTask
  rw [if_neg (by simp [ht]), if_pos ?cond]
  case cond =>
    simp only [Bool.and_eq_true]
    constructor
    · cases hd : rct.depends with
      | nil => exact absurd hd hne
      | cons c cs => rfl
    · rw [List.all_eq_true]
      intro d hd
      obtain ⟨dt, hdt, hst⟩ := hdeps d hd
      unfold depFinishedAndUnmatched
      rw [hdt]
      dsimp only
      rw [hst]
      simp [depStatusMatches_skipped d (hnosk d hd), RunTaskStatus.isFinished]

theorem advanceTask_unchanged (r : RunMap) (rct : RunConfigTask) (t0 : RunTask)
    (d : RunConfigTaskDepend) (hd : d ∈ rct.depends) (dt : RunTask)
    (hdt : r d.taskID = some dt) (hfin : dt.status.isFinished = true)
    (hmatch : depStatusMatches d dt.status = true) :
    advanceTask r rct t0 = t0 := by
  unfold advanceTask
  split
  · rfl
  · rw [if_neg ?h]
    case h =>
      simp only [Bool.and_eq_true, not_and]
      intro _ hall
      rw [List.all_eq_true] at hall
      have hdall := hall d hd
      unfold depFinishedAndUnmatched at hdall
      rw [hdt] at hdall
      simp [hmatch] at hdall

theorem advanceRunTasks_unchanged_aux (rc : RunConfigMap) (id : String)
    (rct : RunConfigTask) (hrc : rc id = some rct) (t0 : RunTask)
    (d : RunConfigTaskDepend) (hd : d ∈ rct.depends) (dt : RunTask)
    (hfin : dt.status.isFinished = true)
    (hmatch : depStatusMatches d dt.status = true) :
    ∀ (order : List String) (r : RunMap), r id = some t0 → r d.taskID = some dt →
      advanceRunTasks order rc r id = some t0 := by
  intro order
  induction order with
  | nil =>
    intro r h1 _
    exact h1
  | cons a l ih =>
    intro r h1 h2
    have hid : (advanceRunTasksStep rc r a) id = some t0 := by
      by_cases hax : id = a
      · subst hax
        unfold advanceRunTasksStep
        rw [h1, hrc]
        show updateRun r id (advanceTask r rct t0) id = some t0
        simp [updateRun, advanceTask_unchanged r rct t0 d hd dt h2 hfin hmatch]
      · rw [advanceRunTasksStep_ne rc r a id hax]
        exact h1
    exact ih (advanceRunTasksStep rc r a) hid
      (advanceRunTasksStep_finished rc r a d.taskID dt h2 hfin)

theorem advanceRunTasks_skip_aux (rc : RunConfigMap) (id : String)
    (rct : RunConfigTask) (hrc : rc id = some rct) (t0 : RunTask)
    (ht : t0.status.isFinished = false) (hne : rct.depends ≠ [])
    (hnosk : ∀ d ∈ rct.depends, ¬ DependCondition.onSkipped ∈ d.conditions) :
    ∀ (order : List String) (r : RunMap),
      (∀ d ∈ rct.depends, ∃ dt, r d.taskID = some dt ∧
         dt.status = RunTaskStatus.skipped) →
      (r id = some t0 ∨ r id = some { t0 with status := RunTaskStatus.skipped }) →
      id ∈ order →
      advanceRunTasks order rc r id
        = some { t0 with status := RunTaskStatus.skipped } := by
  intro order
  induction order with
  | nil =>
    intro r _ _ hmem
    cases hmem
  | cons a l ih =>
    intro r hdeps hentry hmem
    have hdeps2 : ∀ d ∈ rct.depends, ∃ dt,
        (advanceRunTasksStep rc r a) d.taskID = some dt ∧
        dt.status = RunTaskStatus.skipped := by
      intro d hd
      obtain ⟨dt, hdt, hst⟩ := hdeps d hd
      exact ⟨dt, advanceRunTasksStep_finished rc r a d.taskID dt hdt (by rw [hst]; rfl), hst⟩
    rcases List.mem_cons.mp hmem with rfl | hmem2
    · have hstep : (advanceRunTasksStep rc r id) id
          = some { t0 with status := RunTaskStatus.skipped } := by
        rcases hentry with h1 | h1
        · unfold advanceRunTasksStep
          rw [h1, hrc]
          show updateRun r id (advanceTask r rct t0) id = _
          simp [updateRun, advanceTask_skip r rct t0 ht hne hnosk hdeps]
        · exact advanceRunTasksStep_finished rc r id id _ h1 rfl
      exact advanceRunTasks_finished l rc (advanceRunTasksStep rc r id) id _ hstep rfl
    · have hentry2 : (advanceRunTasksStep rc r a) id = some t0 ∨
          (advanceRunTasksStep rc r a) id
            = some { t0 with status := RunTaskStatus.skipped } := by
        by_cases hax : id = a
        · subst hax
          rcases hentry with h1 | h1
          · right
            unfold advanceRunTasksStep
            rw [h1, hrc]
            show updateRun r id (advanceTask r rct t0) id = _
            simp [updateRun, advanceTask_skip r rct t0 ht hne hnosk hdeps]
          · right
            exact advanceRunTasksStep_finished rc r id id _ h1 rfl
        · rw [advanceRunTasksStep_ne rc r a id hax]
          exact hentry
      exact ih (advanceRunTasksStep rc r a) hdeps2 hentry2 hmem2

/-- C2 (amended): after `advanceRunTasks`, a non-terminal task with at least
one dependency, none of which declares an on_skipped condition, all of whose
dependencies have status skipped, has status skipped; a task having some
dependency whose terminal status satisfies that dependency's condition set
keeps its previous status unchanged. -/
theorem advanceRunTasks_skip_propagation :
    (∀ (order : List String) (rc : RunConfigMap) (r : RunMap) (id : String)
       (t0 : RunTask) (rct : RunConfigTask),
       rc id = some rct → r id = some t0 → t0.status.isFinished = false →
       rct.depends ≠ [] →
       (∀ d ∈ rct.depends, ¬ DependCondition.onSkipped ∈ d.conditions) →
       (∀ d ∈ rct.depends, ∃ dt, r d.taskID = some dt ∧
          dt.status = RunTaskStatus.skipped) →
       id ∈ order →
       advanceRunTasks order rc r id
         = some { t0 with status := RunTaskStatus.skipped }) ∧
    (∀ (order : List String) (rc : RunConfigMap) (r : RunMap) (id : String)
       (t0 : RunTask) (rct : RunConfigTask) (d : RunConfigTaskDepend) (dt : RunTask),
       rc id = some rct → r id = some t0 → d ∈ rct.depends →
       r d.taskID = some dt → dt.status.isFinished = true →
       depStatusMatches d dt.status = true →
       advanceRunTasks order rc r id = some t0) := by
  constructor
  · intro order rc r id t0 rct hrc hr ht hne hnosk hdeps hmem
    exact advanceRunTasks_skip_aux rc id rct hrc t0 ht hne hnosk order r hdeps
      (Or.inl hr) hmem
  · intro order rc r id t0 rct d dt hrc hr hd hdt hfin hmatch
    exact advanceRunTasks_unchanged_aux rc id rct hrc t0 d hd dt hfin hmatch order r hr hdt

/-- C2 counterexample: in the first `TestAdvanceRunTasks` case, task01 has no
dependencies (so all of them are vacuously skipped) and is not started, yet
`advanceRunTasks` leaves it not started — the claim as stated, which puts no
lower bound on the dependency list, is false. -/
theorem advanceRunTasks_skip_vacuous_counterexample : ¬ c2SkipPropagationAsStated := by
  intro h
  have hdeps : ∀ d ∈ (mkRCTask "task01" []).depends, ∃ dt,
      testRun d.taskID = some dt ∧ dt.status = RunTaskStatus.skipped := by
    intro d hd
    simp [mkRCTask] at hd
  have h1 := h testOrder testRC testRun "task01"
    (mkRunTask "task01" RunTaskStatus.notStarted false) (mkRCTask "task01" [])
    rfl rfl rfl hdeps (by decide)
  exact absurd h1 (by decide)

/-- Witness for the amended C2 on the `TestAdvanceRunTasks` data: task05 is
skipped when task03 and task04 are both skipped, and keeps its status when
task04 succeeded. -/
theorem advanceRunTasks_skip_propagation_witness :
    advanceRunTasks testOrder (setRCSkip (setRCSkip testRC "task03") "task04")
        (setRunStatus (setRunStatus testRun "task03" RunTaskStatus.skipped) "task04"
          RunTaskStatus.skipped) "task05"
      = some { mkRunTask "task05" RunTaskStatus.notStarted false with
               status := RunTaskStatus.skipped } ∧
    advanceRunTasks testOrder (setRCSkip testRC "task03")
        (setRunStatus (setRunStatus testRun "task03" RunTaskStatus.skipped) "task04"
          RunTaskStatus.success) "task05"
      = some (mkRunTask "task05" RunTaskStatus.notStarted false) := by
  constructor
  · exact advanceRunTasks_skip_propagation.1 testOrder
      (setRCSkip (setRCSkip testRC "task03") "task04")
      (setRunStatus (setRunStatus testRun "task03" RunTaskStatus.skipped) "task04"
        RunTaskStatus.skipped)
      "task05" (mkRunTask "task05" RunTaskStatus.notStarted false)
      (mkRCTask "task05" ["task03", "task04"])
      rfl rfl rfl (by decide) (by decide)
      (by
        intro d hd
        simp [mkRCTask] at hd
        rcases hd with rfl | rfl
        · exact ⟨mkRunTask "task03" RunTaskStatus.skipped false, rfl, rfl⟩
        · exact ⟨mkRunTask "task04" RunTaskStatus.skipped false, rfl, rfl⟩)
      (by decide)
  · exact advanceRunTasks_skip_propagation.2 testOrder (setRCSkip testRC "task03")
      (setRunStatus (setRunStatus testRun "task03" RunTaskStatus.skipped) "task04"
        RunTaskStatus.success)
      "task05" (mkRunTask "task05" RunTaskStatus.notStarted false)
      (mkRCTask "task05" ["task03", "task04"])
      ⟨"task04", []⟩ (mkRunTask "task04" RunTaskStatus.success false)
      rfl rfl (by decide) rfl rfl rfl
